import Mathlib

/-!
Verification of the FoodRecipes application core (src/App.tsx): the
in-memory recipe collection, its persistence to a single durable blob
under a fixed key, and the LIST / ADD / DETAIL view-state machine.

The embedding is a direct state-passing translation of the React
component: each handler becomes a function from the component state
(plus the nondeterministic inputs it reads: the clock value used for id
generation and the success of the underlying durable write) to the new
state together with the list of alerts the handler raises on that call.
-/

/-- A persisted recipe, mirroring the `Recipe` type of App.tsx
(string-typed fields throughout; `image` is a string or null). -/
structure Recipe where
  id : String
  title : String
  image : Option String
  category : String
  servings : String
  prepTime : String
  cookTime : String
  description : String
  ingredients : String
  instructions : String
deriving DecidableEq, Repr

/-- The draft form buffer, mirroring the `Partial<Recipe>` form state:
every field may be unset (`none` plays the role of `undefined`). -/
structure Form where
  title : Option String := none
  image : Option String := none
  category : Option String := none
  servings : Option String := none
  prepTime : Option String := none
  cookTime : Option String := none
  description : Option String := none
  ingredients : Option String := none
  instructions : Option String := none
deriving DecidableEq, Repr

/-- The empty draft buffer, `setForm({})` in the source. -/
def emptyForm : Form := {}

/-- The durable blob stored by AsyncStorage at the fixed key: absent
(getItem returns null), a well-formed JSON array of recipes, or present
but malformed (JSON.parse throws). -/
inductive Blob where
  | absent
  | good (recipes : List Recipe)
  | malformed
deriving DecidableEq, Repr

/-- The view discriminator of the component state. -/
inductive View where
  | LIST
  | ADD
  | DETAIL
deriving DecidableEq, Repr

/-- The alerts the source raises via Alert.alert, one constructor per
distinct call site in the core logic. -/
inductive AlertMsg where
  | failedToLoad
  | failedToSave
  | missingFields
deriving DecidableEq, Repr

/-- The full component state of App: the recipe collection, the current
view, the selected recipe of the detail view, the loading flag, the
draft form buffer, and the durable blob it talks to. -/
structure AppState where
  recipes : List Recipe
  view : View
  selectedRecipe : Option Recipe
  loading : Bool
  form : Form
  storage : Blob
deriving DecidableEq, Repr

/-- The state at mount: the useState initial values, over a given
durable blob. -/
def initialState (b : Blob) : AppState :=
  { recipes := []
    view := View.LIST
    selectedRecipe := none
    loading := true
    form := emptyForm
    storage := b }

/-- JavaScript truthiness test for an optional string: `undefined` and
the empty string are falsy, every other string is truthy. -/
def jsFalsy : Option String → Bool
  | none => true
  | some s => s == ""

/-- JavaScript `o || d` for an optional string `o` and string default `d`. -/
def jsOr (o : Option String) (d : String) : String :=
  match o with
  | none => d
  | some v => if v == "" then d else v

/-- JavaScript `o || null` for an optional string `o`. -/
def jsOrNull (o : Option String) : Option String :=
  match o with
  | none => none
  | some v => if v == "" then none else some v

/-- `loadRecipes`: read the blob; if present, parse and set the
collection; on a parse failure alert; in all cases clear `loading`. -/
def loadRecipes (s : AppState) : AppState × List AlertMsg :=
  match s.storage with
  | Blob.absent => ({ s with loading := false }, [])
  | Blob.good rs => ({ s with recipes := rs, loading := false }, [])
  | Blob.malformed => ({ s with loading := false }, [AlertMsg.failedToLoad])

/-- `saveRecipesToStorage`: serialize and write the new collection; only
after the write succeeds is the in-memory collection updated; on a write
failure the state is left untouched and an alert is raised. -/
def saveRecipesToStorage (s : AppState) (newRecipes : List Recipe) (writeOk : Bool) :
    AppState × List AlertMsg :=
  if writeOk then
    ({ s with storage := Blob.good newRecipes, recipes := newRecipes }, [])
  else
    (s, [AlertMsg.failedToSave])

/-- The `newRecipe` record literal of `handleSave`: a fresh id from the
clock and the JavaScript `||` defaults applied to each draft field. -/
def mkRecipe (f : Form) (now : Nat) : Recipe :=
  { id := toString now
    title := jsOr f.title ""
    image := jsOrNull f.image
    category := jsOr f.category "General"
    servings := jsOr f.servings ""
    prepTime := jsOr f.prepTime ""
    cookTime := jsOr f.cookTime ""
    description := jsOr f.description ""
    ingredients := jsOr f.ingredients ""
    instructions := jsOr f.instructions "" }

/-- `handleSave`: reject a draft with falsy title or ingredients with an
alert and no state change; otherwise prepend the new recipe, write the
collection, then clear the form and return to LIST regardless of the
write's outcome. -/
def handleSave (s : AppState) (now : Nat) (writeOk : Bool) : AppState × List AlertMsg :=
  if jsFalsy s.form.title || jsFalsy s.form.ingredients then
    (s, [AlertMsg.missingFields])
  else
    let updated := mkRecipe s.form now :: s.recipes
    let res := saveRecipesToStorage s updated writeOk
    ({ res.1 with form := emptyForm, view := View.LIST }, res.2)

/-- The `selectedRecipe?.id === id` test of `handleDelete`. -/
def selMatches (sel : Option Recipe) (rid : String) : Bool :=
  match sel with
  | some r => r.id == rid
  | none => false

/-- `handleDelete`: filter the collection by id, write the reduced
collection, and if the deleted id is the selected recipe's id, clear the
selection and return to LIST. -/
def handleDelete (s : AppState) (rid : String) (writeOk : Bool) : AppState × List AlertMsg :=
  let updated := s.recipes.filter (fun r => r.id != rid)
  let res := saveRecipesToStorage s updated writeOk
  if selMatches s.selectedRecipe rid then
    ({ res.1 with selectedRecipe := none, view := View.LIST }, res.2)
  else
    res

/-- `openDetail`: select a recipe and show the detail view. -/
def openDetail (s : AppState) (r : Recipe) : AppState :=
  { s with selectedRecipe := some r, view := View.DETAIL }

/-- The onPress of the floating + button: reset the form, show ADD. -/
def pressPlus (s : AppState) : AppState :=
  { s with form := emptyForm, view := View.ADD }

/-- The onPress of the Cancel button of the ADD view: only setView. -/
def pressCancelAdd (s : AppState) : AppState :=
  { s with view := View.LIST }

/-- The onPress of the Back button of the DETAIL view: only setView. -/
def pressBack (s : AppState) : AppState :=
  { s with view := View.LIST }

/-- A form edit: any of the `setForm({ ...form, field: t })` calls of
the ADD view (including the image picker), abstracted as replacing the
form value. -/
def setFormState (s : AppState) (f : Form) : AppState :=
  { s with form := f }

/-- One step of the application: a handler invocation, gated exactly as
the rendered views gate it — nothing is reachable while `loading`, the
mount-time load runs only while `loading`, the save and cancel buttons
and the form inputs exist only in ADD, tapping a card or the + button
only in LIST, and back or delete only in DETAIL (delete is invoked with
the selected recipe's id). -/
inductive Step : AppState → AppState → Prop where
  | load (s : AppState) (h : s.loading = true) :
      Step s (loadRecipes s).1
  | save (s : AppState) (now : Nat) (ok : Bool) (hl : s.loading = false)
      (hv : s.view = View.ADD) : Step s (handleSave s now ok).1
  | delete (s : AppState) (sel : Recipe) (ok : Bool) (hl : s.loading = false)
      (hv : s.view = View.DETAIL) (hs : s.selectedRecipe = some sel) :
      Step s (handleDelete s sel.id ok).1
  | tapRecipe (s : AppState) (r : Recipe) (hl : s.loading = false)
      (hv : s.view = View.LIST) (hr : r ∈ s.recipes) :
      Step s (openDetail s r)
  | plus (s : AppState) (hl : s.loading = false) (hv : s.view = View.LIST) :
      Step s (pressPlus s)
  | cancel (s : AppState) (hl : s.loading = false) (hv : s.view = View.ADD) :
      Step s (pressCancelAdd s)
  | back (s : AppState) (hl : s.loading = false) (hv : s.view = View.DETAIL) :
      Step s (pressBack s)
  | edit (s : AppState) (f : Form) (hl : s.loading = false)
      (hv : s.view = View.ADD) : Step s (setFormState s f)

/-- The states the application can reach from mount over any blob. -/
inductive Reachable : AppState → Prop where
  | init (b : Blob) : Reachable (initialState b)
  | step {s s' : AppState} : Reachable s → Step s s' → Reachable s'

/-- The detail-view invariant: while still loading the view is LIST, and
in DETAIL the selected recipe exists and is in the collection. -/
def SelectedLive (s : AppState) : Prop :=
  (s.loading = true → s.view = View.LIST) ∧
  (s.view = View.DETAIL → ∃ r, s.selectedRecipe = some r ∧ r ∈ s.recipes)

/-- A concrete recipe, the spec's example scenario. -/
def pastaRecipe : Recipe :=
  { id := "1"
    title := "Pasta"
    image := none
    category := "General"
    servings := ""
    prepTime := ""
    cookTime := ""
    description := ""
    ingredients := "eggs, flour"
    instructions := "" }

/-- A concrete valid draft: title and ingredients set and non-empty. -/
def pastaForm : Form :=
  { title := some "Pasta", ingredients := some "eggs, flour" }

/-- A concrete LIST-view state holding one recipe, over an absent blob. -/
def stateWithPasta : AppState :=
  { recipes := [pastaRecipe]
    view := View.LIST
    selectedRecipe := none
    loading := false
    form := emptyForm
    storage := Blob.absent }

/-- A concrete ADD-view state with a valid draft and no recipes yet. -/
def addStateWithDraft : AppState :=
  { recipes := []
    view := View.ADD
    selectedRecipe := none
    loading := false
    form := pastaForm
    storage := Blob.absent }

/-- A concrete DETAIL-view state with the pasta recipe selected. -/
def detailState : AppState :=
  { recipes := [pastaRecipe]
    view := View.DETAIL
    selectedRecipe := some pastaRecipe
    loading := false
    form := emptyForm
    storage := Blob.good [pastaRecipe] }

/-- C1: for every starting state, if the durable write fails during a
create (handleSave) or a delete (handleDelete), the in-memory collection
observable via list() after the failed call equals the collection before
the call. -/
theorem write_failure_leaves_list_unchanged (s : AppState) (now : Nat) (rid : String) :
    (handleSave s now false).1.recipes = s.recipes ∧
    (handleDelete s rid false).1.recipes = s.recipes := by
  constructor
  · unfold handleSave saveRecipesToStorage
    cases h : (jsFalsy s.form.title || jsFalsy s.form.ingredients) <;> simp
  · unfold handleDelete saveRecipesToStorage
    cases h : selMatches s.selectedRecipe rid <;> simp [h]

/-- C4: a draft with falsy title or falsy ingredients is rejected: the
call returns the state unchanged (so list() and the view are unchanged)
and raises only the missing-fields alert. -/
theorem invalid_draft_rejected (s : AppState) (now : Nat) (ok : Bool)
    (h : jsFalsy s.form.title = true ∨ jsFalsy s.form.ingredients = true) :
    handleSave s now ok = (s, [AlertMsg.missingFields]) := by
  unfold handleSave
  rcases h with h | h <;> simp [h]

/-- C4 witness: the empty draft is rejected and the state is unchanged. -/
theorem invalid_draft_rejected_witness :
    jsFalsy stateWithPasta.form.title = true ∧
    handleSave stateWithPasta 42 true = (stateWithPasta, [AlertMsg.missingFields]) :=
  ⟨by decide, invalid_draft_rejected stateWithPasta 42 true (Or.inl (by decide))⟩

/-- C5 counterexample: cancelling the ADD view with a non-empty draft
transitions to LIST but does not discard the draft buffer. -/
theorem cancel_keeps_draft_counterexample :
    (pressCancelAdd addStateWithDraft).view = View.LIST ∧
    (pressCancelAdd addStateWithDraft).form ≠ emptyForm := by
  decide

/-- C5 (amended): cancel transitions to LIST leaving the draft buffer
untouched; the buffer is reset to empty on entering ADD via the +
button, so a stale draft is never observable in ADD. -/
theorem cancel_transitions_and_plus_resets_draft (s : AppState) :
    (pressCancelAdd s).view = View.LIST ∧
    (pressCancelAdd s).form = s.form ∧
    (pressPlus s).view = View.ADD ∧
    (pressPlus s).form = emptyForm := by
  simp [pressCancelAdd, pressPlus]

/-- C7: loading from an absent blob yields the empty collection with no
alert; loading from a malformed blob raises the read-failure alert but
still ends with the empty collection and loading complete. -/
theorem load_absent_empty_and_malformed_fails_open :
    (loadRecipes (initialState Blob.absent)).1.recipes = [] ∧
    (loadRecipes (initialState Blob.absent)).2 = [] ∧
    (loadRecipes (initialState Blob.absent)).1.loading = false ∧
    (loadRecipes (initialState Blob.malformed)).1.recipes = [] ∧
    (loadRecipes (initialState Blob.malformed)).2 = [AlertMsg.failedToLoad] ∧
    (loadRecipes (initialState Blob.malformed)).1.loading = false := by
  decide

/-- C8: the recipe built from a draft defaults category to General when
unset, image to null when unset, and the remaining optional fields to
the empty string when unset. -/
theorem create_applies_field_defaults (f : Form) (now : Nat) :
    (f.category = none → (mkRecipe f now).category = "General") ∧
    (f.image = none → (mkRecipe f now).image = none) ∧
    (f.servings = none → (mkRecipe f now).servings = "") ∧
    (f.prepTime = none → (mkRecipe f now).prepTime = "") ∧
    (f.cookTime = none → (mkRecipe f now).cookTime = "") ∧
    (f.description = none → (mkRecipe f now).description = "") ∧
    (f.instructions = none → (mkRecipe f now).instructions = "") := by
  refine ⟨?_, ?_, ?_, ?_, ?_, ?_, ?_⟩ <;>
    intro h <;> simp [mkRecipe, jsOr, jsOrNull, h]

/-- C8 witness: the defaults at the concrete pasta draft, whose
category, image and remaining optional fields are unset. -/
theorem create_applies_field_defaults_witness :
    (mkRecipe pastaForm 42).category = "General" ∧
    (mkRecipe pastaForm 42).image = none ∧
    (mkRecipe pastaForm 42).servings = "" :=
  ⟨(create_applies_field_defaults pastaForm 42).1 rfl,
   (create_applies_field_defaults pastaForm 42).2.1 rfl,
   (create_applies_field_defaults pastaForm 42).2.2.1 rfl⟩

/-- C10: on a valid draft, save clears the form and returns to LIST even
in the run where the durable write fails, and in that run the collection
is unchanged, so the new recipe is absent from list(). -/
theorem save_returns_to_list_despite_write_failure (s : AppState) (now : Nat)
    (ht : jsFalsy s.form.title = false) (hi : jsFalsy s.form.ingredients = false) :
    (handleSave s now false).1.view = View.LIST ∧
    (handleSave s now false).1.form = emptyForm ∧
    (handleSave s now false).1.recipes = s.recipes ∧
    (handleSave s now false).2 = [AlertMsg.failedToSave] := by
  unfold handleSave saveRecipesToStorage
  simp [ht, hi]

/-- C10 witness: the failed-write run at the concrete valid draft. -/
theorem save_returns_to_list_despite_write_failure_witness :
    jsFalsy addStateWithDraft.form.title = false ∧
    (handleSave addStateWithDraft 42 false).1.view = View.LIST ∧
    (handleSave addStateWithDraft 42 false).1.recipes = addStateWithDraft.recipes :=
  ⟨by decide,
   (save_returns_to_list_despite_write_failure addStateWithDraft 42
      (by decide) (by decide)).1,
   (save_returns_to_list_despite_write_failure addStateWithDraft 42
      (by decide) (by decide)).2.2.1⟩

/-- C2 counterexample: deleting an id that matches no recipe raises no
alert at all (there is no not-found failure) and does write the blob —
the storage goes from absent to a written collection. -/
theorem delete_missing_id_counterexample :
    (handleDelete stateWithPasta "2" true).2 = [] ∧
    (handleDelete stateWithPasta "2" true).1.storage ≠ stateWithPasta.storage ∧
    (handleDelete stateWithPasta "2" true).1.recipes = stateWithPasta.recipes := by
  decide

/-- C2 (amended): deleting an id that matches no recipe does not fail —
no alert is raised — but it does rewrite the blob with the unchanged
collection; list() is left unchanged. -/
theorem delete_missing_id_rewrites_unchanged (s : AppState) (rid : String)
    (h : ∀ r ∈ s.recipes, r.id ≠ rid) :
    (handleDelete s rid true).1.recipes = s.recipes ∧
    (handleDelete s rid true).2 = [] ∧
    (handleDelete s rid true).1.storage = Blob.good s.recipes := by
  have hf : s.recipes.filter (fun r => r.id != rid) = s.recipes := by
    rw [List.filter_eq_self]
    intro r hr
    simpa using h r hr
  unfold handleDelete saveRecipesToStorage
  cases hm : selMatches s.selectedRecipe rid <;> simp [hf, hm]

/-- C2 witness: the amended behaviour at a concrete missing id. -/
theorem delete_missing_id_rewrites_unchanged_witness :
    (∀ r ∈ stateWithPasta.recipes, r.id ≠ "2") ∧
    (handleDelete stateWithPasta "2" true).1.storage = Blob.good stateWithPasta.recipes :=
  ⟨by decide, (delete_missing_id_rewrites_unchanged stateWithPasta "2" (by decide)).2.2⟩

/-- C3: on a valid draft, create raises no alert, list() becomes the new
recipe prepended to the previous collection (newest first), and a fresh
load from the written blob, simulating a restart, yields that same
collection, so it includes the new recipe. -/
theorem create_valid_prepends_and_persists (s : AppState) (now : Nat)
    (ht : jsFalsy s.form.title = false) (hi : jsFalsy s.form.ingredients = false) :
    (handleSave s now true).2 = [] ∧
    (handleSave s now true).1.recipes = mkRecipe s.form now :: s.recipes ∧
    (loadRecipes (initialState (handleSave s now true).1.storage)).1.recipes
      = mkRecipe s.form now :: s.recipes ∧
    mkRecipe s.form now
      ∈ (loadRecipes (initialState (handleSave s now true).1.storage)).1.recipes := by
  unfold handleSave saveRecipesToStorage
  simp [ht, hi, loadRecipes, initialState]

/-- C3 witness: the concrete pasta draft is created, heads list(), and
survives a simulated restart. -/
theorem create_valid_prepends_and_persists_witness :
    jsFalsy addStateWithDraft.form.title = false ∧
    (handleSave addStateWithDraft 42 true).1.recipes
      = [mkRecipe addStateWithDraft.form 42] ∧
    mkRecipe addStateWithDraft.form 42
      ∈ (loadRecipes (initialState (handleSave addStateWithDraft 42 true).1.storage)).1.recipes :=
  ⟨by decide,
   (create_valid_prepends_and_persists addStateWithDraft 42 (by decide) (by decide)).2.1,
   (create_valid_prepends_and_persists addStateWithDraft 42 (by decide) (by decide)).2.2.2⟩

/-- The state after two creates of the pasta draft in the same clock
millisecond (the user re-enters the draft between them). -/
def afterTwoSameMsCreates : AppState :=
  (handleSave (setFormState (handleSave addStateWithDraft 5 true).1 pastaForm) 5 true).1

/-- C9 counterexample: two creates in the same millisecond assign the
same Date.now() id, so the collection holds two recipes with equal ids —
the assigned ids are not pairwise distinct. -/
theorem create_same_ms_duplicate_ids_counterexample :
    afterTwoSameMsCreates.recipes.map Recipe.id = ["5", "5"] ∧
    ¬ (afterTwoSameMsCreates.recipes.map Recipe.id).Nodup := by
  decide

/-- C9 (amended): ids stay pairwise distinct provided each create's
clock value, as a string, differs from every id already in the
collection — which holds when creates fall in distinct milliseconds and
never revisit a stored id; with a non-advancing clock two creates
produce equal ids. -/
theorem create_fresh_timestamp_preserves_unique_ids (s : AppState) (now : Nat) (ok : Bool)
    (hnd : (s.recipes.map Recipe.id).Nodup)
    (hfresh : ∀ r ∈ s.recipes, r.id ≠ toString now) :
    ((handleSave s now ok).1.recipes.map Recipe.id).Nodup := by
  unfold handleSave saveRecipesToStorage
  cases hv : (jsFalsy s.form.title || jsFalsy s.form.ingredients)
  · cases ok
    · simpa using hnd
    · simp only [Bool.false_eq_true, if_false, if_true, List.map_cons, List.nodup_cons]
      refine ⟨?_, hnd⟩
      simp only [List.mem_map, not_exists, not_and]
      intro r hr hid
      exact hfresh r hr (by simpa [mkRecipe] using hid)
  · simpa using hnd

/-- C9 witness: a create at a fresh millisecond over the one-recipe
collection keeps the ids pairwise distinct. -/
theorem create_fresh_timestamp_preserves_unique_ids_witness :
    (stateWithPasta.recipes.map Recipe.id).Nodup ∧
    ((handleSave stateWithPasta 7 true).1.recipes.map Recipe.id).Nodup :=
  ⟨by decide,
   create_fresh_timestamp_preserves_unique_ids stateWithPasta 7 true
     (by decide) (by decide)⟩

/-- A state showing the LIST view satisfies the detail-view invariant. -/
lemma selectedLive_of_list {s : AppState} (h : s.view = View.LIST) :
    SelectedLive s :=
  ⟨fun _ => h, fun hd => by rw [h] at hd; exact absurd hd (by simp)⟩

/-- A non-loading state away from the DETAIL view satisfies the
detail-view invariant. -/
lemma selectedLive_not_detail {s : AppState} (hl : s.loading = false)
    (h : s.view ≠ View.DETAIL) : SelectedLive s :=
  ⟨fun hlt => absurd hlt (by simp [hl]), fun hd => absurd hd h⟩

/-- Every application step preserves the detail-view invariant. -/
lemma selectedLive_step {s s' : AppState} (hs : SelectedLive s)
    (st : Step s s') : SelectedLive s' := by
  cases st with
  | load h =>
      apply selectedLive_of_list
      have hLIST := hs.1 h
      cases hb : s.storage <;> simp [loadRecipes, hb, hLIST]
  | save now ok hl hv =>
      by_cases hval : (jsFalsy s.form.title || jsFalsy s.form.ingredients) = true
      · simpa [handleSave, hval] using hs
      · have hval' : (jsFalsy s.form.title || jsFalsy s.form.ingredients) = false := by
          simpa using hval
        apply selectedLive_of_list
        cases ok <;> simp [handleSave, saveRecipesToStorage, hval']
  | delete sel ok hl hv hsel =>
      have hm : selMatches s.selectedRecipe sel.id = true := by
        simp [selMatches, hsel]
      apply selectedLive_of_list
      cases ok <;> simp [handleDelete, saveRecipesToStorage, hm]
  | tapRecipe r hl hv hr =>
      constructor
      · intro hlt
        simp [openDetail, hl] at hlt
      · intro _
        exact ⟨r, by simp [openDetail], by simpa [openDetail] using hr⟩
  | plus hl hv =>
      exact selectedLive_not_detail (by simp [pressPlus, hl]) (by simp [pressPlus])
  | cancel hl hv =>
      exact selectedLive_of_list (by simp [pressCancelAdd])
  | back hl hv =>
      exact selectedLive_of_list (by simp [pressBack])
  | edit f hl hv =>
      exact selectedLive_not_detail (by simp [setFormState, hl])
        (by simp [setFormState, hv])

/-- Every reachable state satisfies the detail-view invariant. -/
lemma reachable_selectedLive {s : AppState} (h : Reachable s) :
    SelectedLive s := by
  induction h with
  | init b => exact selectedLive_of_list rfl
  | step _ st ih => exact selectedLive_step ih st

/-- The concrete DETAIL state is reachable: mount over a good blob, the
mount-time load, then tapping the pasta card. -/
lemma reachable_detailState : Reachable detailState := by
  have h2 :=
    Reachable.step
      (Reachable.step (Reachable.init (Blob.good [pastaRecipe])) (Step.load _ rfl))
      (Step.tapRecipe _ pastaRecipe (by decide) (by decide) (by decide))
  have he : openDetail (loadRecipes (initialState (Blob.good [pastaRecipe]))).1 pastaRecipe
      = detailState := by decide
  rw [he] at h2
  exact h2

/-- C6: deleting the id of the currently selected recipe clears the
selection and transitions to LIST (for every state and either write
outcome), and in every reachable state the DETAIL view implies the
selected recipe exists and is still in the collection. -/
theorem delete_selected_clears_and_returns_to_list :
    (∀ (s : AppState) (sel : Recipe) (ok : Bool), s.selectedRecipe = some sel →
      (handleDelete s sel.id ok).1.selectedRecipe = none ∧
      (handleDelete s sel.id ok).1.view = View.LIST) ∧
    (∀ s : AppState, Reachable s → s.view = View.DETAIL →
      ∃ r, s.selectedRecipe = some r ∧ r ∈ s.recipes) := by
  constructor
  · intro s sel ok hsel
    have hm : selMatches s.selectedRecipe sel.id = true := by
      simp [selMatches, hsel]
    cases ok <;> simp [handleDelete, saveRecipesToStorage, hm]
  · intro s hr hv
    exact (reachable_selectedLive hr).2 hv

/-- C6 witness: at the concrete DETAIL state, deleting the selected
recipe lands in LIST, and the invariant holds there. -/
theorem delete_selected_clears_and_returns_to_list_witness :
    detailState.selectedRecipe = some pastaRecipe ∧
    (handleDelete detailState pastaRecipe.id true).1.view = View.LIST ∧
    (∃ r, detailState.selectedRecipe = some r ∧ r ∈ detailState.recipes) :=
  ⟨rfl,
   (delete_selected_clears_and_returns_to_list.1 detailState pastaRecipe true rfl).2,
   delete_selected_clears_and_returns_to_list.2 detailState reachable_detailState rfl⟩
